import Mathlib

/-!
Verification of the lattice-layout and parametric-geometry engine of the
`blender_scripts` repository (2D `visualization/` and 3D `visualization_3d/`
packages), against its natural-language specification.

Python floats are modelled as exact rationals (`ℚ`) for the purely arithmetic
2D geometry, and as reals (`ℝ`) for the 3D code that uses `math.exp` /
`math.sqrt`.  Python `dict`s built by nested loops are modelled as association
lists produced by the same loops; Python `range(n)` is `intRange n`.
A Python function that can raise on some input is modelled with `Option` /
`Except`, with `none` / `.error` marking the raising executions.
-/

namespace BlenderScripts

/-- Python `range(n)` for an `int` argument: the list `[0, 1, …, n-1]`,
empty when `n ≤ 0`. -/
def intRange (n : ℤ) : List ℤ :=
  (List.range n.toNat).map Nat.cast

/-- The two checkerboard cell types used by `SquareLattice`
(`'resonator'` and `'flux_line'` strings in the source). -/
inductive CellT where
  | resonator
  | flux_line
  deriving DecidableEq, Repr

/-- Edge direction tag (`"horizontal"` / `"vertical"` strings in the source). -/
inductive EdgeDir where
  | horizontal
  | vertical
  deriving DecidableEq, Repr

/-- `SquareLattice._cell_type` (visualization/lattice.py:127-136):
`first_cell` when `(r + c) % 2 == 0`, otherwise the other type. -/
def cell_type (r c : ℤ) (first_cell : CellT) : CellT :=
  if (r + c) % 2 = 0 then first_cell
  else if first_cell = CellT.resonator then CellT.flux_line else CellT.resonator

/-- `SquareLattice._mirror_for_edge` (visualization/lattice.py:138-168).
Returns `none` exactly when the Python code falls through to
`self._cell_type(*cell, ...)` with `cell = None`, which raises `TypeError`. -/
def mirror_for_edge (rows cols : ℤ) (edge_key : (ℤ × ℤ) × (ℤ × ℤ))
    (direction : EdgeDir) (first_cell : CellT) : Option Bool :=
  let r := edge_key.1.1
  let c := edge_key.1.2
  match direction with
  | EdgeDir.horizontal =>
    let cell_above : Option (ℤ × ℤ) := if r < rows - 1 then some (r, c) else none
    let cell_below : Option (ℤ × ℤ) := if r > 0 then some (r - 1, c) else none
    match cell_above with
    | some cell => some (decide (cell_type cell.1 cell.2 first_cell = CellT.resonator))
    | none =>
      match cell_below with
      | some cell => some (decide (cell_type cell.1 cell.2 first_cell ≠ CellT.resonator))
      | none => none
  | EdgeDir.vertical =>
    let cell_right : Option (ℤ × ℤ) := if c < cols - 1 then some (r, c) else none
    let cell_left : Option (ℤ × ℤ) := if c > 0 then some (r, c - 1) else none
    match cell_right with
    | some cell => some (decide (cell_type cell.1 cell.2 first_cell ≠ CellT.resonator))
    | none =>
      match cell_left with
      | some cell => some (decide (cell_type cell.1 cell.2 first_cell = CellT.resonator))
      | none => none

/-- `XmonDims` (visualization/styles.py:31-36), default values included. -/
structure XmonDims where
  arm_len : ℚ := 140
  arm_width : ℚ := 30
  pad_head_size : ℚ := 60

/-- `JJChainDims` (visualization/styles.py:39-46). -/
structure JJChainDims where
  length : ℚ := 200
  width : ℚ := 15
  island_len : ℚ := 20
  gap : ℚ := 15
  overlap : ℚ := 6

/-- `CouplerXmonDims` (visualization/styles.py:62-68). -/
structure CouplerXmonDims where
  long_arm_len : ℚ := 100
  short_arm_len : ℚ := 50
  arm_width : ℚ := 24
  pad_head_size : ℚ := 45

/-- `FluxoniumDims` (visualization/styles.py:49-59); only the fields used by
the lattice pitch computation are listed, plus the chain dims. -/
structure FluxoniumDims where
  xmon : XmonDims := {}
  chain : JJChainDims := {}
  chain_separation : ℚ := 40
  chain_start_dist : ℚ := 15
  chain_angle : ℚ := -45
  connector_bar_extra : ℚ := 6
  connector_bar_height : ℚ := 6

/-- `TunableTransmonDims` (visualization/styles.py:101-108); only the `xmon`
member is consulted by the lattice engine. -/
structure TunableTransmonDims where
  xmon : CouplerXmonDims := {}
  squid_arm_index : ℤ := 0
  resonator_arm_index : ℤ := 1

/-- `LatticeConfig` (visualization/styles.py:111-118): a plain dataclass,
no validation of any field. -/
structure LatticeConfig where
  rows : ℤ := 3
  cols : ℤ := 3
  pitch : ℚ := 0
  pad_gap : ℚ := 20

/-- `SquareLattice._compute_min_pitch` (visualization/lattice.py:74-82). -/
def compute_min_pitch (fluxonium_dims : FluxoniumDims)
    (coupler_dims : TunableTransmonDims) (pad_gap : ℚ) : ℚ :=
  let fx := fluxonium_dims.xmon
  let fx_tip := fx.arm_width / 2 + fx.arm_len + fx.pad_head_size / 1.5
  let tx := coupler_dims.xmon
  let tx_tip := tx.arm_width / 2 + tx.long_arm_len + tx.pad_head_size / 1.5
  2 * (fx_tip + tx_tip + pad_gap)

/-- The site position stored for key `(r, c)`:
`np.array([c * p, r * p])` (visualization/lattice.py:90). -/
def site_xy (p : ℚ) (r c : ℤ) : ℚ × ℚ :=
  ((c : ℚ) * p, (r : ℚ) * p)

/-- The `_site_positions` dict (visualization/lattice.py:86-90), as the
association list produced by the same double loop. -/
def site_positions (rows cols : ℤ) (p : ℚ) : List ((ℤ × ℤ) × (ℚ × ℚ)) :=
  (intRange rows).flatMap (fun r =>
    (intRange cols).map (fun c => ((r, c), site_xy p r c)))

/-- Componentwise midpoint `(a + b) / 2` of two positions. -/
def midpoint2 (a b : ℚ × ℚ) : ℚ × ℚ :=
  ((a.1 + b.1) / 2, (a.2 + b.2) / 2)

/-- The `_edge_positions` dict (visualization/lattice.py:92-105): horizontal
edges `(r,c)-(r,c+1)` first, then vertical edges `(r,c)-(r+1,c)`, each with
the midpoint of the two site positions and its direction tag. -/
def edge_positions (rows cols : ℤ) (p : ℚ) :
    List (((ℤ × ℤ) × (ℤ × ℤ)) × ((ℚ × ℚ) × EdgeDir)) :=
  ((intRange rows).flatMap (fun r =>
    (intRange (cols - 1)).map (fun c =>
      (((r, c), (r, c + 1)),
        (midpoint2 (site_xy p r c) (site_xy p r (c + 1)), EdgeDir.horizontal)))))
  ++ ((intRange (rows - 1)).flatMap (fun r =>
    (intRange cols).map (fun c =>
      (((r, c), (r + 1, c)),
        (midpoint2 (site_xy p r c) (site_xy p (r + 1) c), EdgeDir.vertical)))))

/-- The state built by `SquareLattice.__init__` (visualization/lattice.py:51-72):
the effective pitch and the two position maps. -/
structure SquareLattice where
  pitch : ℚ
  sites : List ((ℤ × ℤ) × (ℚ × ℚ))
  edges : List (((ℤ × ℤ) × (ℤ × ℤ)) × ((ℚ × ℚ) × EdgeDir))

/-- `SquareLattice.__init__` (visualization/lattice.py:51-72) as a fallible
constructor.  In order, it resolves the pitch (auto-computing it when
`cfg.pitch <= 0`, lattice.py:62-63), builds the prototype components
(lattice.py:65-66), and builds the position maps (lattice.py:69-72).
The raising statements on that path are:
`FluxoniumQubit.__init__` → `JJChain._generate`, whose
`int(d.length / unit)` (visualization/primitives.py:152) raises
`ZeroDivisionError` when `unit = island_len + gap == 0`, and
`TunableTransmonCoupler.__init__`, whose
`_SHORT_ARM_ANGLES[...]` lookups (visualization/qubits.py:159-160) raise
`KeyError` when `squid_arm_index` or `resonator_arm_index` is outside
`{0, 1}` (the squid lookup runs first).  Every other statement — the pitch
arithmetic and the `Xmon`, `JosephsonJunction`, `DCSqUID`, `Resonator` and
`FluxLine` constructors, which only store dims or do total arithmetic —
cannot raise. -/
def SquareLattice.init (cfg : LatticeConfig) (fluxonium_dims : FluxoniumDims)
    (coupler_dims : TunableTransmonDims) : Except String SquareLattice :=
  let p := if cfg.pitch ≤ 0 then compute_min_pitch fluxonium_dims coupler_dims cfg.pad_gap
           else cfg.pitch
  if fluxonium_dims.chain.island_len + fluxonium_dims.chain.gap = 0 then
    Except.error "ZeroDivisionError"
  else if ¬ (coupler_dims.squid_arm_index = 0 ∨ coupler_dims.squid_arm_index = 1) then
    Except.error "KeyError"
  else if ¬ (coupler_dims.resonator_arm_index = 0 ∨ coupler_dims.resonator_arm_index = 1) then
    Except.error "KeyError"
  else
    Except.ok
      { pitch := p
        sites := site_positions cfg.rows cfg.cols p
        edges := edge_positions cfg.rows cfg.cols p }

/-- `true` iff the Python constructor returns normally (does not raise). -/
def constructionSucceeds (cfg : LatticeConfig) (fluxonium_dims : FluxoniumDims)
    (coupler_dims : TunableTransmonDims) : Bool :=
  match SquareLattice.init cfg fluxonium_dims coupler_dims with
  | Except.ok _ => true
  | Except.error _ => false

/-- Python `int(x)` applied to a float: truncation toward zero. -/
def pyInt (x : ℚ) : ℤ :=
  if 0 ≤ x then ⌊x⌋ else ⌈x⌉

/-- `n_cells = int(d.length / unit)` with `unit = d.island_len + d.gap`
(visualization/primitives.py:151-152). -/
def JJChain.n_cells (d : JJChainDims) : ℤ :=
  pyInt (d.length / (d.island_len + d.gap))

/-- The island rectangles `(x, -width/2, island_len, width)` appended by
`JJChain._generate` (visualization/primitives.py:155-156): the loop runs
`i = 0 … n_cells` with `x` starting at `0` and stepping by `unit`, so island
`i` sits at `x = i * unit`. -/
def JJChain.islands (d : JJChainDims) : List (ℚ × ℚ × ℚ × ℚ) :=
  (List.range (JJChain.n_cells d + 1).toNat).map (fun (i : ℕ) =>
    ((i : ℚ) * (d.island_len + d.gap), -d.width / 2, d.island_len, d.width))

/-- The bridge rectangles `(bx, -bw/2, bridge_len, bw)` appended by
`JJChain._generate` (visualization/primitives.py:157-160) for
`i = 0 … n_cells - 1`, with `bx = x + island_len - overlap`,
`bridge_len = gap + 2*overlap` and `bw = width * 0.85`. -/
def JJChain.bridges (d : JJChainDims) : List (ℚ × ℚ × ℚ × ℚ) :=
  (List.range (JJChain.n_cells d).toNat).map (fun (i : ℕ) =>
    ((i : ℚ) * (d.island_len + d.gap) + d.island_len - d.overlap,
      -(d.width * 0.85) / 2, d.gap + 2 * d.overlap, d.width * 0.85))

/-- `self.total_length = x - unit + d.island_len`
(visualization/primitives.py:162), where after the loop
`x = (number of loop iterations) * unit`. -/
def JJChain.total_length (d : JJChainDims) : ℚ :=
  (((JJChain.n_cells d + 1).toNat : ℚ)) * (d.island_len + d.gap)
    - (d.island_len + d.gap) + d.island_len

/-- The chain dimensions `length=200, width=15, island_len=20, gap=15, overlap=6`
(the `JJChainDims` defaults). -/
def chainDims200 : JJChainDims := { length := 200, width := 15, island_len := 20, gap := 15, overlap := 6 }

/-- The chain dimensions of C10's overshoot example: requested length 176. -/
def chainDims176 : JJChainDims := { length := 176, width := 15, island_len := 20, gap := 15, overlap := 6 }

/-- The chain dimensions with requested length 0. -/
def chainDims0 : JJChainDims := { length := 0, width := 15, island_len := 20, gap := 15, overlap := 6 }

/-- `np.linspace a b n`: sample `i` (for `i < n`) at `a + (b-a)*i/(n-1)`,
as used for the x-samples of `create_dolan_bridge`
(visualization_3d/primitives.py:352). -/
noncomputable def linspace (a b : ℝ) (n : ℕ) (i : ℕ) : ℝ :=
  a + (b - a) * i / ((n : ℝ) - 1)

/-- The local function `sigmoid_z` of `create_dolan_bridge`
(visualization_3d/primitives.py:353-362):
`s_left = 1/(1+exp(steepness*(x-left_step)))`,
`s_right = 1/(1+exp(-steepness*(x-right_step)))`,
`z = h_step*(s_left+s_right)`, with `left_step = -total_length/2 +
overlap_len` and `right_step = total_length/2 - overlap_len`. -/
noncomputable def sigmoid_z (h_step steepness overlap_len total_length x : ℝ) : ℝ :=
  let left_step := -total_length / 2 + overlap_len
  let right_step := total_length / 2 - overlap_len
  let s_left := 1 / (1 + Real.exp (steepness * (x - left_step)))
  let s_right := 1 / (1 + Real.exp (-steepness * (x - right_step)))
  h_step * (s_left + s_right)

/-- The standard logistic sigmoid `σ(t) = 1/(1+e^(-t))` — the convention the
spec uses (its single-sigmoid half-bridge formula
`z = h_step*sigmoid(steepness*(x-step_x))` matches the code
`1/(1+exp(-steepness*(x-step_x)))` under exactly this convention). -/
noncomputable def sigmoid (t : ℝ) : ℝ :=
  1 / (1 + Real.exp (-t))

/-- Modelled from the spec: the claimed double-sigmoid bottom height
`z(x) = h_step * (sigmoid(steepness*(x - left_step)) +
sigmoid(-steepness*(x - right_step)))`, stated for comparison against the
source's `sigmoid_z`. -/
noncomputable def claimedBottomZ (h_step steepness overlap_len total_length x : ℝ) : ℝ :=
  let left_step := -total_length / 2 + overlap_len
  let right_step := total_length / 2 - overlap_len
  h_step * (sigmoid (steepness * (x - left_step))
    + sigmoid (-steepness * (x - right_step)))

/-- A bottom vertex of the Dolan-bridge mesh at x-slice `i`
(visualization_3d/primitives.py:368-376): `(x, ±width/2, zb)` with
`zb = sigmoid_z x`. -/
noncomputable def dolanVertBottom (h_step steepness overlap_len total_length
    width : ℝ) (res_x i : ℕ) (right : Bool) : ℝ × ℝ × ℝ :=
  let x := linspace (-total_length / 2) (total_length / 2) res_x i
  (x, if right then width / 2 else -width / 2,
    sigmoid_z h_step steepness overlap_len total_length x)

/-- A top vertex of the Dolan-bridge mesh at x-slice `i`:
`(x, ±width/2, zb + thickness)`. -/
noncomputable def dolanVertTop (h_step steepness overlap_len total_length
    width thickness : ℝ) (res_x i : ℕ) (right : Bool) : ℝ × ℝ × ℝ :=
  let x := linspace (-total_length / 2) (total_length / 2) res_x i
  (x, if right then width / 2 else -width / 2,
    sigmoid_z h_step steepness overlap_len total_length x + thickness)

/-- `np.linalg.norm` / `math.hypot` of a 2-vector. -/
noncomputable def norm2 (v : ℝ × ℝ) : ℝ :=
  Real.sqrt (v.1 ^ 2 + v.2 ^ 2)

/-- Point `i` of a polyline (out-of-range reads never occur on the inputs
considered). -/
def getPt (pts : List (ℝ × ℝ)) (i : ℕ) : ℝ × ℝ :=
  pts.getD i (0, 0)

/-- The raw (un-normalised) tangent at vertex `i`: forward difference at the
first point, backward difference at the last, central difference in between —
the scheme shared by `Resonator.place` (visualization/primitives.py:375-379)
and `create_extruded_path` (visualization_3d/primitives.py:241-248). -/
noncomputable def rawTangent (pts : List (ℝ × ℝ)) (i : ℕ) : ℝ × ℝ :=
  if i = 0 then getPt pts 1 - getPt pts 0
  else if i = pts.length - 1 then
    getPt pts (pts.length - 1) - getPt pts (pts.length - 2)
  else getPt pts (i + 1) - getPt pts (i - 1)

/-- The normalised tangent of `Resonator.place`
(visualization/primitives.py:380-382): numpy-style guard
`lengths[lengths == 0] = 1` before dividing, so a zero-length tangent is
divided by 1 and stays the zero vector. -/
noncomputable def normTangent (pts : List (ℝ × ℝ)) (i : ℕ) : ℝ × ℝ :=
  let t := rawTangent pts i
  let len := norm2 t
  let len' := if len = 0 then 1 else len
  (t.1 / len', t.2 / len')

/-- The per-vertex ribbon normal of `Resonator.place`
(visualization/primitives.py:384): tangent rotated 90° CCW. -/
noncomputable def ribbonNormal (pts : List (ℝ × ℝ)) (i : ℕ) : ℝ × ℝ :=
  let t := normTangent pts i
  (-t.2, t.1)

/-- The end-extension preprocessing of `Resonator.place`
(visualization/primitives.py:369-372): append
`last + 0.01 * (last - second_last)/‖last - second_last‖` to the centreline
(numpy produces `nan` when that norm is zero; division is total here). -/
noncomputable def extendCentreline (pts : List (ℝ × ℝ)) : List (ℝ × ℝ) :=
  let e := getPt pts (pts.length - 1) - getPt pts (pts.length - 2)
  let u := (e.1 / norm2 e, e.2 / norm2 e)
  pts ++ [getPt pts (pts.length - 1) + (0.01 * u.1, 0.01 * u.2)]

/-- The normal `Resonator.place` uses at vertex `i` to offset the ribbon:
the ribbon normal of the extended centreline. -/
noncomputable def resonatorNormal (pts : List (ℝ × ℝ)) (i : ℕ) : ℝ × ℝ :=
  ribbonNormal (extendCentreline pts) i

/-- The tangent direction of `create_extruded_path`
(visualization_3d/primitives.py:241-255): when `hypot(t) < 1e-9` fall back
to the unit X vector `(1, 0)`, otherwise normalise. -/
noncomputable def tangent3d (pts : List (ℝ × ℝ)) (i : ℕ) : ℝ × ℝ :=
  let t := rawTangent pts i
  let tlen := norm2 t
  if tlen < 1e-9 then (1, 0) else (t.1 / tlen, t.2 / tlen)

/-- The sequence of mirror flags computed by `SquareLattice.place` with the
default `cell_pattern="checkerboard"` (visualization/lattice.py:258-266):
one `_mirror_for_edge` call per edge; `none` if any call raises. -/
def placeMirrors (rows cols : ℤ) (p : ℚ) (first_cell : CellT) :
    Option (List Bool) :=
  (edge_positions rows cols p).mapM
    (fun e => mirror_for_edge rows cols e.1 e.2.2 first_cell)

end BlenderScripts

open BlenderScripts

lemma mem_intRange {n x : ℤ} : x ∈ intRange n ↔ 0 ≤ x ∧ x < n := by
  simp only [intRange, List.mem_map, List.mem_range]
  constructor
  · rintro ⟨i, hi, rfl⟩
    omega
  · rintro ⟨h0, h1⟩
    exact ⟨x.toNat, by omega, by omega⟩

lemma length_intRange (n : ℤ) : (intRange n).length = n.toNat := by
  rw [intRange, List.length_map, List.length_range]

lemma length_flatMap_map {α β γ : Type} (l : List α) (m : List β)
    (g : α → β → γ) :
    (l.flatMap (fun a => m.map (g a))).length = l.length * m.length := by
  induction l with
  | nil => simp
  | cons a l ih =>
    simp [List.flatMap_cons, ih, Nat.succ_mul, Nat.add_comm]

lemma mem_flatMap_map {α β γ : Type} {l : List α} {m : List β}
    {g : α → β → γ} {x : γ} :
    x ∈ l.flatMap (fun a => m.map (g a)) ↔ ∃ a ∈ l, ∃ b ∈ m, g a b = x := by
  simp [List.mem_flatMap, List.mem_map]

/-- C4: `site_positions` maps exactly the keys `(r, c)` with
`0 ≤ r < rows`, `0 ≤ c < cols` to `(c*pitch, r*pitch)` exactly, hence has
`rows*cols` entries; `edge_positions` contains exactly one entry per
horizontally and per vertically adjacent pair — no diagonal or wraparound
edges — each holding the midpoint of the two site positions and its
direction tag, for a total of `rows*(cols-1) + (rows-1)*cols` edges. -/
theorem c4_positions (rows cols : ℤ) (p : ℚ)
    (hrows : 1 ≤ rows) (hcols : 1 ≤ cols) :
    ((site_positions rows cols p).length : ℤ) = rows * cols ∧
    (∀ r c v, ((r, c), v) ∈ site_positions rows cols p ↔
      0 ≤ r ∧ r < rows ∧ 0 ≤ c ∧ c < cols ∧ v = ((c : ℚ) * p, (r : ℚ) * p)) ∧
    ((edge_positions rows cols p).length : ℤ) =
      rows * (cols - 1) + (rows - 1) * cols ∧
    (∀ k v, (k, v) ∈ edge_positions rows cols p ↔
      (∃ r c, 0 ≤ r ∧ r < rows ∧ 0 ≤ c ∧ c < cols - 1 ∧
        k = ((r, c), (r, c + 1)) ∧
        v = (midpoint2 (site_xy p r c) (site_xy p r (c + 1)), EdgeDir.horizontal)) ∨
      (∃ r c, 0 ≤ r ∧ r < rows - 1 ∧ 0 ≤ c ∧ c < cols ∧
        k = ((r, c), (r + 1, c)) ∧
        v = (midpoint2 (site_xy p r c) (site_xy p (r + 1) c), EdgeDir.vertical))) := by
  refine ⟨?_, ?_, ?_, ?_⟩
  · rw [site_positions, length_flatMap_map, length_intRange, length_intRange]
    push_cast
    rw [Int.toNat_of_nonneg (by omega : (0 : ℤ) ≤ rows),
      Int.toNat_of_nonneg (by omega : (0 : ℤ) ≤ cols)]
  · intro r c v
    rw [site_positions, mem_flatMap_map]
    constructor
    · rintro ⟨r', hr', c', hc', h⟩
      rw [mem_intRange] at hr' hc'
      obtain ⟨h1, h2⟩ := Prod.mk.injEq _ _ _ _ ▸ h
      obtain ⟨hr, hc⟩ := Prod.mk.injEq _ _ _ _ ▸ h1
      subst hr hc
      exact ⟨hr'.1, hr'.2, hc'.1, hc'.2, h2.symm⟩
    · rintro ⟨h1, h2, h3, h4, rfl⟩
      exact ⟨r, mem_intRange.mpr ⟨h1, h2⟩, c, mem_intRange.mpr ⟨h3, h4⟩, rfl⟩
  · rw [edge_positions, List.length_append, length_flatMap_map,
      length_flatMap_map, length_intRange, length_intRange, length_intRange,
      length_intRange]
    push_cast
    rw [Int.toNat_of_nonneg (by omega : (0 : ℤ) ≤ rows),
      Int.toNat_of_nonneg (by omega : (0 : ℤ) ≤ cols),
      Int.toNat_of_nonneg (by omega : (0 : ℤ) ≤ rows - 1),
      Int.toNat_of_nonneg (by omega : (0 : ℤ) ≤ cols - 1)]
  · intro k v
    rw [edge_positions, List.mem_append, mem_flatMap_map, mem_flatMap_map]
    constructor
    · rintro (⟨r', hr', c', hc', h⟩ | ⟨r', hr', c', hc', h⟩)
      · rw [mem_intRange] at hr' hc'
        left
        obtain ⟨h1, h2⟩ := Prod.mk.injEq _ _ _ _ ▸ h
        exact ⟨r', c', hr'.1, hr'.2, hc'.1, hc'.2, h1.symm, h2.symm⟩
      · rw [mem_intRange] at hr' hc'
        right
        obtain ⟨h1, h2⟩ := Prod.mk.injEq _ _ _ _ ▸ h
        exact ⟨r', c', hr'.1, hr'.2, hc'.1, hc'.2, h1.symm, h2.symm⟩
    · rintro (⟨r', c', h1, h2, h3, h4, rfl, rfl⟩ | ⟨r', c', h1, h2, h3, h4, rfl, rfl⟩)
      · exact Or.inl ⟨r', mem_intRange.mpr ⟨h1, h2⟩, c',
          mem_intRange.mpr ⟨h3, h4⟩, rfl⟩
      · exact Or.inr ⟨r', mem_intRange.mpr ⟨h1, h2⟩, c',
          mem_intRange.mpr ⟨h3, h4⟩, rfl⟩

/-- C4 witness: a 2 × 3 lattice with pitch 10. -/
theorem c4_positions_witness :
    ((site_positions 2 3 10).length : ℤ) = 2 * 3 ∧
    (((1, 2), ((20 : ℚ), (10 : ℚ))) ∈ site_positions 2 3 10 ↔
      (0 : ℤ) ≤ 1 ∧ (1 : ℤ) < 2 ∧ (0 : ℤ) ≤ 2 ∧ (2 : ℤ) < 3 ∧
      (((20 : ℚ), (10 : ℚ)) = ((2 : ℚ) * 10, (1 : ℚ) * 10))) ∧
    ((edge_positions 2 3 10).length : ℤ) = 2 * (3 - 1) + (2 - 1) * 3 := by
  have h := c4_positions 2 3 10 (by decide) (by decide)
  exact ⟨h.1, h.2.1 1 2 ((20 : ℚ), (10 : ℚ)), h.2.2.1⟩

lemma intRange_of_nonpos {n : ℤ} (h : n ≤ 0) : intRange n = [] := by
  have h0 : n.toNat = 0 := by omega
  rw [intRange, h0]
  rfl

lemma flatMap_eq_nil {α β : Type} (l : List α) (f : α → List β)
    (h : ∀ a ∈ l, f a = []) : l.flatMap f = [] := by
  induction l with
  | nil => rfl
  | cons a t ih =>
    rw [List.flatMap_cons, h a (List.mem_cons_self a t), List.nil_append]
    exact ih (fun b hb => h b (List.mem_cons_of_mem a hb))

lemma site_positions_eq_nil {rows cols : ℤ} (p : ℚ)
    (h : rows ≤ 0 ∨ cols ≤ 0) : site_positions rows cols p = [] := by
  rcases h with h | h
  · rw [site_positions, intRange_of_nonpos h]
    rfl
  · exact flatMap_eq_nil _ _ (fun a _ => by rw [intRange_of_nonpos h]; rfl)

lemma edge_positions_eq_nil {rows cols : ℤ} (p : ℚ)
    (h : rows ≤ 0 ∨ cols ≤ 0) : edge_positions rows cols p = [] := by
  rw [edge_positions]
  rcases h with h | h
  · rw [intRange_of_nonpos h, intRange_of_nonpos (by omega : rows - 1 ≤ 0)]
    rfl
  · rw [flatMap_eq_nil _ _ (fun a _ => by
        rw [intRange_of_nonpos (by omega : cols - 1 ≤ 0)]; rfl),
      flatMap_eq_nil _ _ (fun a _ => by rw [intRange_of_nonpos h]; rfl)]
    rfl

lemma mapM_eq_none {α β : Type} {l : List α} {f : α → Option β} {a : α}
    (ha : a ∈ l) (hf : f a = none) : l.mapM f = none := by
  induction l with
  | nil => cases ha
  | cons b t ih =>
    rw [List.mapM_cons]
    rcases List.mem_cons.mp ha with rfl | hmem
    · rw [hf]
      rfl
    · cases hfb : f b
      · rfl
      · simp only [hfb, Option.bind_eq_bind, Option.some_bind]
        rw [ih hmem]
        rfl

/-- C5: for every integer pair `(r, c)` and both choices of `first_cell`,
`_cell_type` returns `first_cell` when `(r + c)` is even and the other type
when `(r + c)` is odd; consequently horizontally and vertically adjacent
cells always get different types. -/
theorem c5_cell_type_checkerboard (r c : ℤ) (first_cell : CellT) :
    ((r + c) % 2 = 0 → cell_type r c first_cell = first_cell) ∧
    ((r + c) % 2 ≠ 0 → cell_type r c first_cell ≠ first_cell) ∧
    cell_type r c first_cell ≠ cell_type r (c + 1) first_cell ∧
    cell_type r c first_cell ≠ cell_type (r + 1) c first_cell := by
  have hcases : (r + c) % 2 = 0 ∨ (r + c) % 2 = 1 := by omega
  refine ⟨?_, ?_, ?_, ?_⟩
  · intro h
    simp [cell_type, h]
  · intro h
    have h1 : (r + c) % 2 = 1 := by omega
    rcases first_cell with _ | _ <;> simp [cell_type, h1]
  · rcases hcases with h | h
    · have h1 : ¬ ((r + (c + 1)) % 2 = 0) := by omega
      rcases first_cell with _ | _ <;> simp [cell_type, h, h1]
    · have h0 : ¬ ((r + c) % 2 = 0) := by omega
      have h1 : (r + (c + 1)) % 2 = 0 := by omega
      rcases first_cell with _ | _ <;> simp [cell_type, h0, h1]
  · rcases hcases with h | h
    · have h1 : ¬ ((r + 1 + c) % 2 = 0) := by omega
      rcases first_cell with _ | _ <;> simp [cell_type, h, h1]
    · have h0 : ¬ ((r + c) % 2 = 0) := by omega
      have h1 : (r + 1 + c) % 2 = 0 := by omega
      rcases first_cell with _ | _ <;> simp [cell_type, h0, h1]

/-- C1: mirror rule of `_mirror_for_edge`.  For a horizontal edge
`(r,c)-(r,c+1)` with both neighbour cells present (`0 < r < rows-1`),
`mirror = true` iff the above cell `(r,c)` is resonator-typed, equivalently
`mirror = false` iff the below cell `(r-1,c)` is resonator-typed (the
resonator arm faces the resonator-typed neighbour cell).  On a horizontal
boundary edge with only a below neighbour (`r = rows-1 > 0`) the result is
the negation of that cell being resonator-typed.  On a vertical edge the
symmetric rule applies with flipped sense: with a right cell present,
`mirror = false` iff the right cell `(r,c)` is resonator-typed (and with
both cells present `mirror = true` iff the left cell `(r,c-1)` is
resonator-typed); with only a left cell, `mirror = true` iff that cell is
resonator-typed. -/
theorem c1_mirror_rule (rows cols r c : ℤ) (first_cell : CellT) :
    (0 < r → r < rows - 1 →
      (mirror_for_edge rows cols ((r, c), (r, c + 1)) EdgeDir.horizontal first_cell
          = some true ↔ cell_type r c first_cell = CellT.resonator) ∧
      (mirror_for_edge rows cols ((r, c), (r, c + 1)) EdgeDir.horizontal first_cell
          = some false ↔ cell_type (r - 1) c first_cell = CellT.resonator)) ∧
    (0 < r → r = rows - 1 →
      (mirror_for_edge rows cols ((r, c), (r, c + 1)) EdgeDir.horizontal first_cell
          = some true ↔ ¬ cell_type (r - 1) c first_cell = CellT.resonator)) ∧
    (0 < c → c < cols - 1 →
      (mirror_for_edge rows cols ((r, c), (r + 1, c)) EdgeDir.vertical first_cell
          = some false ↔ cell_type r c first_cell = CellT.resonator) ∧
      (mirror_for_edge rows cols ((r, c), (r + 1, c)) EdgeDir.vertical first_cell
          = some true ↔ cell_type r (c - 1) first_cell = CellT.resonator)) ∧
    (0 < c → c = cols - 1 →
      (mirror_for_edge rows cols ((r, c), (r + 1, c)) EdgeDir.vertical first_cell
          = some true ↔ cell_type r (c - 1) first_cell = CellT.resonator)) := by
  have hdiffH : cell_type r c first_cell = CellT.resonator ↔
      ¬ cell_type (r - 1) c first_cell = CellT.resonator := by
    rcases Int.emod_two_eq_zero_or_one (r + c) with h | h
    · have h0 : ¬ ((r - 1 + c) % 2 = 0) := by omega
      rcases first_cell with _ | _ <;> simp [cell_type, h, h0]
    · have h0 : ¬ ((r + c) % 2 = 0) := by omega
      have h1' : (r - 1 + c) % 2 = 0 := by omega
      rcases first_cell with _ | _ <;> simp [cell_type, h0, h1']
  have hdiffV : cell_type r c first_cell = CellT.resonator ↔
      ¬ cell_type r (c - 1) first_cell = CellT.resonator := by
    rcases Int.emod_two_eq_zero_or_one (r + c) with h | h
    · have h0 : ¬ ((r + (c - 1)) % 2 = 0) := by omega
      rcases first_cell with _ | _ <;> simp [cell_type, h, h0]
    · have h0 : ¬ ((r + c) % 2 = 0) := by omega
      have h1' : (r + (c - 1)) % 2 = 0 := by omega
      rcases first_cell with _ | _ <;> simp [cell_type, h0, h1']
  refine ⟨?_, ?_, ?_, ?_⟩
  · intro h1 h2
    constructor
    · simp [mirror_for_edge, h2]
    · simp only [mirror_for_edge, if_pos h2, Option.some_inj,
        decide_eq_false_iff_not]
      tauto
  · intro h1 h2
    have hno : ¬ (r < rows - 1) := by omega
    simp [mirror_for_edge, hno, h1]
  · intro h1 h2
    constructor
    · simp only [mirror_for_edge, if_pos h2, Option.some_inj,
        decide_eq_false_iff_not]
      tauto
    · simp only [mirror_for_edge, if_pos h2, Option.some_inj,
        decide_eq_true_eq]
      tauto
  · intro h1 h2
    have hno : ¬ (c < cols - 1) := by omega
    simp [mirror_for_edge, hno, h1]

/-- C5 witness at `(r, c) = (0, 0)` and `(1, 2)`. -/
theorem c5_cell_type_checkerboard_witness :
    ((0 + 0 : ℤ) % 2 = 0 → cell_type 0 0 CellT.resonator = CellT.resonator) ∧
    ((1 + 2 : ℤ) % 2 ≠ 0 → cell_type 1 2 CellT.resonator ≠ CellT.resonator) := by
  exact ⟨(c5_cell_type_checkerboard 0 0 CellT.resonator).1,
         (c5_cell_type_checkerboard 1 2 CellT.resonator).2.1⟩

lemma constructionSucceeds_iff (cfg : LatticeConfig) (fd : FluxoniumDims)
    (cd : TunableTransmonDims) :
    constructionSucceeds cfg fd cd = true ↔
      (fd.chain.island_len + fd.chain.gap ≠ 0 ∧
        (cd.squid_arm_index = 0 ∨ cd.squid_arm_index = 1) ∧
        (cd.resonator_arm_index = 0 ∨ cd.resonator_arm_index = 1)) := by
  by_cases h1 : fd.chain.island_len + fd.chain.gap = 0
  · simp only [constructionSucceeds, SquareLattice.init, if_pos h1]
    simp [h1]
  · by_cases h2 : cd.squid_arm_index = 0 ∨ cd.squid_arm_index = 1
    · by_cases h3 : cd.resonator_arm_index = 0 ∨ cd.resonator_arm_index = 1
      · simp only [constructionSucceeds, SquareLattice.init, if_neg h1,
          if_neg (not_not_intro h2), if_neg (not_not_intro h3)]
        simp only [true_iff]
        exact ⟨h1, h2, h3⟩
      · simp only [constructionSucceeds, SquareLattice.init, if_neg h1,
          if_neg (not_not_intro h2), if_pos h3]
        simp [h3]
    · simp only [constructionSucceeds, SquareLattice.init, if_neg h1, if_pos h2]
      simp [h2]

lemma init_ok_of_succeeds (cfg : LatticeConfig) (fd : FluxoniumDims)
    (cd : TunableTransmonDims) (h : constructionSucceeds cfg fd cd = true) :
    SquareLattice.init cfg fd cd = Except.ok
      { pitch := if cfg.pitch ≤ 0 then compute_min_pitch fd cd cfg.pad_gap
                 else cfg.pitch
        sites := site_positions cfg.rows cfg.cols
          (if cfg.pitch ≤ 0 then compute_min_pitch fd cd cfg.pad_gap
           else cfg.pitch)
        edges := edge_positions cfg.rows cfg.cols
          (if cfg.pitch ≤ 0 then compute_min_pitch fd cd cfg.pad_gap
           else cfg.pitch) } := by
  obtain ⟨h1, h2, h3⟩ := (constructionSucceeds_iff cfg fd cd).mp h
  simp only [SquareLattice.init, if_neg h1, if_neg (not_not_intro h2),
    if_neg (not_not_intro h3)]

/-- C7 counterexample: constructing a `SquareLattice` from
`LatticeConfig(rows=0, cols=3, pitch=1, pad_gap=20)` — a non-positive lattice
size — with the default component dimensions succeeds (the Python
constructor returns normally), so construction does **not** fail fast with
an error as the claim states. -/
theorem c7_counterexample :
    constructionSucceeds { rows := 0, cols := 3, pitch := 1, pad_gap := 20 }
      {} {} = true := by
  refine (constructionSucceeds_iff _ {} {}).mpr ⟨?_, Or.inl rfl, Or.inr rfl⟩
  show (20 : ℚ) + 15 ≠ 0
  norm_num

/-- C7 amended: `LatticeConfig` and `SquareLattice.__init__` perform no
fail-fast validation.  Construction succeeds exactly when the prototype
components are buildable — it fails only with `ZeroDivisionError` when the
fluxonium chain has `island_len + gap = 0` or with `KeyError` when a coupler
arm index is outside `{0, 1}` — never as a check of the lattice size, the
pitch, or a dimension's sign.  Whenever construction succeeds, a
non-positive `rows` or `cols` yields empty site and edge maps (as §4.3 of
the spec says), and a non-positive `pitch` is silently replaced by the
auto-computed minimum pitch rather than rejected. -/
theorem c7_no_validation (cfg : LatticeConfig) (fd : FluxoniumDims)
    (cd : TunableTransmonDims) :
    (constructionSucceeds cfg fd cd = true ↔
      (fd.chain.island_len + fd.chain.gap ≠ 0 ∧
        (cd.squid_arm_index = 0 ∨ cd.squid_arm_index = 1) ∧
        (cd.resonator_arm_index = 0 ∨ cd.resonator_arm_index = 1))) ∧
    (constructionSucceeds cfg fd cd = true →
      (cfg.rows ≤ 0 ∨ cfg.cols ≤ 0 →
        (SquareLattice.init cfg fd cd).toOption.map SquareLattice.sites
          = some [] ∧
        (SquareLattice.init cfg fd cd).toOption.map SquareLattice.edges
          = some []) ∧
      (cfg.pitch ≤ 0 →
        (SquareLattice.init cfg fd cd).toOption.map SquareLattice.pitch
          = some (compute_min_pitch fd cd cfg.pad_gap)) ∧
      (0 < cfg.pitch →
        (SquareLattice.init cfg fd cd).toOption.map SquareLattice.pitch
          = some cfg.pitch)) := by
  refine ⟨constructionSucceeds_iff cfg fd cd, ?_⟩
  intro hs
  have hok := init_ok_of_succeeds cfg fd cd hs
  refine ⟨?_, ?_, ?_⟩
  · intro h
    rw [hok]
    simp [Except.toOption, site_positions_eq_nil _ h, edge_positions_eq_nil _ h]
  · intro h
    rw [hok]
    simp [Except.toOption, if_pos h]
  · intro h
    rw [hok]
    simp [Except.toOption, if_neg (not_le.mpr h)]

/-- C7 witness: at `rows = 0, pitch = 0` (default component dims)
construction succeeds, the empty-map and auto-pitch branches apply; at
`rows = cols = 2, pitch = 5` the explicit pitch is kept. -/
theorem c7_no_validation_witness :
    (constructionSucceeds { rows := 0, cols := 3, pitch := 0, pad_gap := 20 }
        {} {} = true ∧
      ((0 : ℤ) ≤ 0 ∨ (3 : ℤ) ≤ 0) ∧
      (SquareLattice.init { rows := 0, cols := 3, pitch := 0, pad_gap := 20 }
          {} {}).toOption.map SquareLattice.sites = some []) ∧
    (constructionSucceeds { rows := 2, cols := 2, pitch := 5, pad_gap := 20 }
        {} {} = true ∧
      (0 : ℚ) < 5 ∧
      (SquareLattice.init { rows := 2, cols := 2, pitch := 5, pad_gap := 20 }
          {} {}).toOption.map SquareLattice.pitch = some 5) := by
  have hwf : ({} : FluxoniumDims).chain.island_len
      + ({} : FluxoniumDims).chain.gap ≠ 0 := by
    show (20 : ℚ) + 15 ≠ 0
    norm_num
  have hs0 : constructionSucceeds
      { rows := 0, cols := 3, pitch := 0, pad_gap := 20 } {} {} = true :=
    ((c7_no_validation { rows := 0, cols := 3, pitch := 0, pad_gap := 20 }
      {} {}).1).mpr ⟨hwf, Or.inl rfl, Or.inr rfl⟩
  have hs5 : constructionSucceeds
      { rows := 2, cols := 2, pitch := 5, pad_gap := 20 } {} {} = true :=
    ((c7_no_validation { rows := 2, cols := 2, pitch := 5, pad_gap := 20 }
      {} {}).1).mpr ⟨hwf, Or.inl rfl, Or.inr rfl⟩
  refine ⟨⟨hs0, Or.inl le_rfl, ?_⟩, ⟨hs5, by norm_num, ?_⟩⟩
  · exact (((c7_no_validation { rows := 0, cols := 3, pitch := 0, pad_gap := 20 }
      {} {}).2 hs0).1 (Or.inl le_rfl)).1
  · exact ((c7_no_validation { rows := 2, cols := 2, pitch := 5, pad_gap := 20 }
      {} {}).2 hs5).2.2 (by norm_num)

/-- C9: on a 1 × cols lattice every (horizontal) edge has neither an above
nor a below neighbour cell, so `_mirror_for_edge` falls through to
`self._cell_type(*cell_below, ...)` with `cell_below = None` and raises
`TypeError` (modelled as `none`); symmetrically for a rows × 1 lattice on
vertical edges.  Hence `place()` with the default checkerboard pattern fails
on every single-row or single-column lattice with at least one edge. -/
theorem c9_single_row_or_column_fails (rows cols r c : ℤ) (p : ℚ)
    (first_cell : CellT) :
    (0 ≤ c → c < cols - 1 →
      mirror_for_edge 1 cols ((0, c), (0, c + 1)) EdgeDir.horizontal first_cell
        = none) ∧
    (2 ≤ cols → placeMirrors 1 cols p first_cell = none) ∧
    (0 ≤ r → r < rows - 1 →
      mirror_for_edge rows 1 ((r, 0), (r + 1, 0)) EdgeDir.vertical first_cell
        = none) ∧
    (2 ≤ rows → placeMirrors rows 1 p first_cell = none) := by
  have hhead : ∀ c' : ℤ,
      mirror_for_edge 1 cols ((0, c'), (0, c' + 1)) EdgeDir.horizontal first_cell
        = none := by
    intro c'
    simp [mirror_for_edge]
  have hvert : ∀ r' : ℤ,
      mirror_for_edge rows 1 ((r', 0), (r' + 1, 0)) EdgeDir.vertical first_cell
        = none := by
    intro r'
    simp [mirror_for_edge]
  refine ⟨fun _ _ => hhead c, ?_, fun _ _ => hvert r, ?_⟩
  · intro hcols
    have hmem : (((0, 0), (0, 1)),
        (midpoint2 (site_xy p 0 0) (site_xy p 0 (0 + 1)), EdgeDir.horizontal))
          ∈ edge_positions 1 cols p := by
      rw [edge_positions, List.mem_append]
      left
      rw [mem_flatMap_map]
      exact ⟨0, mem_intRange.mpr (by omega), 0, mem_intRange.mpr (by omega), rfl⟩
    exact mapM_eq_none hmem (hhead 0)
  · intro hrows
    have hmem : (((0, 0), (1, 0)),
        (midpoint2 (site_xy p 0 0) (site_xy p (0 + 1) 0), EdgeDir.vertical))
          ∈ edge_positions rows 1 p := by
      rw [edge_positions, List.mem_append]
      right
      rw [mem_flatMap_map]
      exact ⟨0, mem_intRange.mpr (by omega), 0, mem_intRange.mpr (by omega), rfl⟩
    exact mapM_eq_none hmem (hvert 0)

/-- C9 witness: the concrete 1 × 2 and 2 × 1 lattices with pitch 10. -/
theorem c9_single_row_or_column_fails_witness :
    ((0 : ℤ) ≤ 0 ∧ (0 : ℤ) < 2 - 1 ∧
      mirror_for_edge 1 2 ((0, 0), (0, 0 + 1)) EdgeDir.horizontal
        CellT.resonator = none) ∧
    ((2 : ℤ) ≤ 2 ∧ placeMirrors 1 2 10 CellT.resonator = none) ∧
    ((2 : ℤ) ≤ 2 ∧ placeMirrors 2 1 10 CellT.resonator = none) := by
  have h := c9_single_row_or_column_fails 2 2 0 0 10 CellT.resonator
  exact ⟨⟨le_rfl, by norm_num, h.1 le_rfl (by norm_num)⟩,
    ⟨le_rfl, h.2.1 le_rfl⟩, ⟨le_rfl, h.2.2.2 le_rfl⟩⟩


lemma JJChain.n_cells_eq_floor {d : JJChainDims} (h1 : 0 < d.island_len)
    (h2 : 0 < d.gap) (h0 : 0 ≤ d.length) :
    JJChain.n_cells d = ⌊d.length / (d.island_len + d.gap)⌋ := by
  have hu : (0 : ℚ) < d.island_len + d.gap := by linarith
  have hq : (0 : ℚ) ≤ d.length / (d.island_len + d.gap) :=
    div_nonneg h0 (le_of_lt hu)
  rw [JJChain.n_cells, pyInt, if_pos hq]

lemma n_cells_chainDims200 : JJChain.n_cells chainDims200 = 5 := by
  norm_num [JJChain.n_cells, pyInt, chainDims200]

lemma n_cells_chainDims176 : JJChain.n_cells chainDims176 = 5 := by
  norm_num [JJChain.n_cells, pyInt, chainDims176]

/-- C3: for positive `island_len`, `gap`, `overlap` and `length`, the chain
consists of exactly `floor(length / (island_len + gap)) + 1` islands at
period `island_len + gap` along +X from `x = 0`, and one fewer bridge, each
bridge of length `gap + 2*overlap` starting `overlap` inside the preceding
island with width `0.85 * width`; in particular for
`length=200, island_len=20, gap=15, overlap=6` there are 6 islands,
5 bridges, and `total_length = 195`. -/
theorem c3_jj_chain_structure (d : JJChainDims) (h1 : 0 < d.island_len)
    (h2 : 0 < d.gap) (h3 : 0 < d.overlap) (h4 : 0 < d.length) :
    JJChain.islands d =
      (List.range ((⌊d.length / (d.island_len + d.gap)⌋).toNat + 1)).map
        (fun (i : ℕ) => ((i : ℚ) * (d.island_len + d.gap), -d.width / 2,
          d.island_len, d.width)) ∧
    JJChain.bridges d =
      (List.range (⌊d.length / (d.island_len + d.gap)⌋).toNat).map
        (fun (i : ℕ) => ((i : ℚ) * (d.island_len + d.gap) + d.island_len - d.overlap,
          -(d.width * 0.85) / 2, d.gap + 2 * d.overlap, d.width * 0.85)) ∧
    (JJChain.islands d).length = (JJChain.bridges d).length + 1 ∧
    (JJChain.islands chainDims200).length = 6 ∧
    (JJChain.bridges chainDims200).length = 5 ∧
    JJChain.total_length chainDims200 = 195 := by
  have hfl := JJChain.n_cells_eq_floor h1 h2 (le_of_lt h4)
  have hnn : 0 ≤ JJChain.n_cells d := by
    rw [hfl]
    exact Int.floor_nonneg.mpr (div_nonneg (le_of_lt h4) (by linarith))
  refine ⟨?_, ?_, ?_, ?_, ?_, ?_⟩
  · have ht : (⌊d.length / (d.island_len + d.gap)⌋ + 1).toNat
        = (⌊d.length / (d.island_len + d.gap)⌋).toNat + 1 := by omega
    rw [JJChain.islands, hfl, ht]
  · rw [JJChain.bridges, hfl]
  · rw [JJChain.islands, JJChain.bridges, List.length_map, List.length_map,
      List.length_range, List.length_range]
    omega
  · rw [JJChain.islands, List.length_map, List.length_range, n_cells_chainDims200]
    rfl
  · rw [JJChain.bridges, List.length_map, List.length_range, n_cells_chainDims200]
    rfl
  · rw [JJChain.total_length, n_cells_chainDims200]
    have h6 : ((5 : ℤ) + 1).toNat = 6 := rfl
    rw [h6]
    norm_num [chainDims200]

/-- C3 witness: the default chain dimensions. -/
theorem c3_jj_chain_structure_witness :
    ((0 : ℚ) < 20 ∧ (0 : ℚ) < 15 ∧ (0 : ℚ) < 6 ∧ (0 : ℚ) < 200) ∧
    (JJChain.islands chainDims200).length = 6 := by
  refine ⟨⟨by norm_num, by norm_num, by norm_num, by norm_num⟩, ?_⟩
  exact (c3_jj_chain_structure chainDims200
    (by norm_num [chainDims200]) (by norm_num [chainDims200])
    (by norm_num [chainDims200]) (by norm_num [chainDims200])).2.2.2.1

/-- C10: for `island_len > 0` and `gap > 0` (and a non-negative requested
`length`, per the data-model invariant that all lengths are non-negative),
`total_length` equals
`floor(length / (island_len + gap)) * (island_len + gap) + island_len`;
hence `total_length - length` lies in `(-gap, island_len]`.  For
`length=176, island_len=20, gap=15` the chain overshoots to
`total_length = 195`, and `length = 0` still yields one island with
`total_length = island_len`. -/
theorem c10_total_length (d : JJChainDims) (h1 : 0 < d.island_len)
    (h2 : 0 < d.gap) (h0 : 0 ≤ d.length) :
    JJChain.total_length d =
      (⌊d.length / (d.island_len + d.gap)⌋ : ℚ) * (d.island_len + d.gap)
        + d.island_len ∧
    -d.gap < JJChain.total_length d - d.length ∧
    JJChain.total_length d - d.length ≤ d.island_len ∧
    (d.length = 0 → (JJChain.islands d).length = 1 ∧
      JJChain.total_length d = d.island_len) ∧
    JJChain.total_length chainDims176 = 195 := by
  have hu : (0 : ℚ) < d.island_len + d.gap := by linarith
  have hfl := JJChain.n_cells_eq_floor h1 h2 h0
  have hnn : 0 ≤ ⌊d.length / (d.island_len + d.gap)⌋ :=
    Int.floor_nonneg.mpr (div_nonneg h0 (le_of_lt hu))
  have hmain : JJChain.total_length d =
      (⌊d.length / (d.island_len + d.gap)⌋ : ℚ) * (d.island_len + d.gap)
        + d.island_len := by
    rw [JJChain.total_length, hfl]
    have ht : (((⌊d.length / (d.island_len + d.gap)⌋ + 1).toNat : ℤ) : ℚ)
        = (⌊d.length / (d.island_len + d.gap)⌋ : ℚ) + 1 := by
      rw [Int.toNat_of_nonneg (by omega)]
      push_cast
      ring
    push_cast at ht ⊢
    rw [ht]
    ring
  have hlow : (⌊d.length / (d.island_len + d.gap)⌋ : ℚ)
      * (d.island_len + d.gap) ≤ d.length := by
    have hle := Int.floor_le (d.length / (d.island_len + d.gap))
    calc (⌊d.length / (d.island_len + d.gap)⌋ : ℚ) * (d.island_len + d.gap)
        ≤ (d.length / (d.island_len + d.gap)) * (d.island_len + d.gap) :=
          mul_le_mul_of_nonneg_right hle (le_of_lt hu)
      _ = d.length := div_mul_cancel₀ _ (ne_of_gt hu)
  have hhigh : d.length <
      ((⌊d.length / (d.island_len + d.gap)⌋ : ℚ) + 1) * (d.island_len + d.gap) := by
    have hlt := Int.lt_floor_add_one (d.length / (d.island_len + d.gap))
    calc d.length
        = (d.length / (d.island_len + d.gap)) * (d.island_len + d.gap) :=
          (div_mul_cancel₀ _ (ne_of_gt hu)).symm
      _ < ((⌊d.length / (d.island_len + d.gap)⌋ : ℚ) + 1) * (d.island_len + d.gap) :=
          mul_lt_mul_of_pos_right hlt hu
  refine ⟨hmain, ?_, ?_, ?_, ?_⟩
  · rw [hmain]
    nlinarith
  · rw [hmain]
    linarith
  · intro hz
    have hq : ⌊d.length / (d.island_len + d.gap)⌋ = 0 := by
      rw [hz, zero_div, Int.floor_zero]
    constructor
    · rw [JJChain.islands, List.length_map, List.length_range, hfl, hq]
      rfl
    · rw [hmain, hq]
      push_cast
      ring
  · rw [JJChain.total_length, n_cells_chainDims176]
    have h6 : ((5 : ℤ) + 1).toNat = 6 := rfl
    rw [h6]
    norm_num [chainDims176]

/-- C10 witness: the default chain dimensions and the zero-length chain. -/
theorem c10_total_length_witness :
    ((0 : ℚ) < 20 ∧ (0 : ℚ) < 15 ∧ (0 : ℚ) ≤ 0) ∧
    (JJChain.islands chainDims0).length = 1 ∧
    JJChain.total_length chainDims0 = 20 := by
  refine ⟨⟨by norm_num, by norm_num, le_rfl⟩, ?_⟩
  have h := (c10_total_length chainDims0
    (by norm_num [chainDims0]) (by norm_num [chainDims0])
    (le_of_eq rfl)).2.2.2.1 rfl
  simpa [chainDims0] using h

lemma one_div_one_add_exp_pos (t : ℝ) : 0 < 1 / (1 + Real.exp t) := by
  positivity

lemma one_div_one_add_exp_le_one (t : ℝ) : 1 / (1 + Real.exp t) ≤ 1 := by
  rw [div_le_one (by positivity)]
  linarith [Real.exp_pos t]

lemma one_div_one_add_exp_le (t : ℝ) :
    1 / (1 + Real.exp t) ≤ Real.exp (-t) := by
  rw [div_le_iff₀ (by positivity)]
  have h : Real.exp (-t) * Real.exp t = 1 := by
    rw [← Real.exp_add]
    simp
  nlinarith [Real.exp_pos (-t)]

lemma one_sub_exp_le_one_div_one_add_exp (t : ℝ) :
    1 - Real.exp t ≤ 1 / (1 + Real.exp t) := by
  rw [le_div_iff₀ (by positivity)]
  nlinarith [Real.exp_pos t, sq_nonneg (Real.exp t)]

lemma sigmoid_z_left_end (hs k ov L : ℝ) (hh : 0 < hs) (hk : 0 < k)
    (hov : 0 < ov) (hL : 2 * ov ≤ L) :
    |sigmoid_z hs k ov L (-L / 2) - hs| ≤ hs * Real.exp (-(k * ov)) := by
  have e1 : k * (-L / 2 - (-L / 2 + ov)) = -(k * ov) := by ring
  have e2 : -k * (-L / 2 - (L / 2 - ov)) = k * (L - ov) := by ring
  have hA1 := one_sub_exp_le_one_div_one_add_exp (-(k * ov))
  have hA2 := one_div_one_add_exp_le_one (-(k * ov))
  have hB1 := one_div_one_add_exp_pos (k * (L - ov))
  have hB2 := one_div_one_add_exp_le (k * (L - ov))
  have hmono : Real.exp (-(k * (L - ov))) ≤ Real.exp (-(k * ov)) :=
    Real.exp_le_exp.mpr (by nlinarith)
  have hBh : hs * (1 / (1 + Real.exp (k * (L - ov))))
      ≤ hs * Real.exp (-(k * ov)) :=
    mul_le_mul_of_nonneg_left (hB2.trans hmono) hh.le
  have hAh : hs * (1 / (1 + Real.exp (-(k * ov)))) ≤ hs * 1 :=
    mul_le_mul_of_nonneg_left hA2 hh.le
  have hAl : hs * (1 - Real.exp (-(k * ov)))
      ≤ hs * (1 / (1 + Real.exp (-(k * ov)))) :=
    mul_le_mul_of_nonneg_left hA1 hh.le
  have hBl : 0 < hs * (1 / (1 + Real.exp (k * (L - ov)))) := mul_pos hh hB1
  rw [sigmoid_z]
  simp only [e1, e2]
  rw [abs_le]
  constructor <;> nlinarith

lemma sigmoid_z_right_end (hs k ov L : ℝ) (hh : 0 < hs) (hk : 0 < k)
    (hov : 0 < ov) (hL : 2 * ov ≤ L) :
    |sigmoid_z hs k ov L (L / 2) - hs| ≤ hs * Real.exp (-(k * ov)) := by
  have e1 : k * (L / 2 - (-L / 2 + ov)) = k * (L - ov) := by ring
  have e2 : -k * (L / 2 - (L / 2 - ov)) = -(k * ov) := by ring
  have hA1 := one_sub_exp_le_one_div_one_add_exp (-(k * ov))
  have hA2 := one_div_one_add_exp_le_one (-(k * ov))
  have hB1 := one_div_one_add_exp_pos (k * (L - ov))
  have hB2 := one_div_one_add_exp_le (k * (L - ov))
  have hmono : Real.exp (-(k * (L - ov))) ≤ Real.exp (-(k * ov)) :=
    Real.exp_le_exp.mpr (by nlinarith)
  have hBh : hs * (1 / (1 + Real.exp (k * (L - ov))))
      ≤ hs * Real.exp (-(k * ov)) :=
    mul_le_mul_of_nonneg_left (hB2.trans hmono) hh.le
  have hAh : hs * (1 / (1 + Real.exp (-(k * ov)))) ≤ hs * 1 :=
    mul_le_mul_of_nonneg_left hA2 hh.le
  have hAl : hs * (1 - Real.exp (-(k * ov)))
      ≤ hs * (1 / (1 + Real.exp (-(k * ov)))) :=
    mul_le_mul_of_nonneg_left hA1 hh.le
  have hBl : 0 < hs * (1 / (1 + Real.exp (k * (L - ov)))) := mul_pos hh hB1
  rw [sigmoid_z]
  simp only [e1, e2]
  rw [abs_le]
  constructor <;> nlinarith

lemma sigmoid_z_middle (hs k ov L : ℝ) (hh : 0 < hs) :
    0 < sigmoid_z hs k ov L 0 ∧
    sigmoid_z hs k ov L 0 ≤ 2 * hs * Real.exp (-(k * (L / 2 - ov))) := by
  have e1 : k * (0 - (-L / 2 + ov)) = k * (L / 2 - ov) := by ring
  have e2 : -k * (0 - (L / 2 - ov)) = k * (L / 2 - ov) := by ring
  have hS1 := one_div_one_add_exp_pos (k * (L / 2 - ov))
  have hS2 := one_div_one_add_exp_le (k * (L / 2 - ov))
  have hSh : hs * (1 / (1 + Real.exp (k * (L / 2 - ov))))
      ≤ hs * Real.exp (-(k * (L / 2 - ov))) :=
    mul_le_mul_of_nonneg_left hS2 hh.le
  constructor
  · rw [sigmoid_z]
    simp only [e1, e2]
    positivity
  · rw [sigmoid_z]
    simp only [e1, e2]
    nlinarith

/-- C2 counterexample: with `h_step=3, steepness=2, overlap_len=1.5,
total_length=20`, the spec's formula (standard logistic sigmoid, arguments
as written in the claim) evaluated at `x = 0` differs from the code's
`sigmoid_z`: the claimed formula gives at least 3 at the strip middle while
the code gives less than 1 there — the claim's sigmoid arguments have the
wrong sign. -/
theorem c2_counterexample :
    claimedBottomZ 3 2 1.5 20 0 ≠ sigmoid_z 3 2 1.5 20 0 := by
  have e1 : (2 : ℝ) * (0 - (-20 / 2 + 1.5)) = 17 := by norm_num
  have e2 : (-2 : ℝ) * (0 - (20 / 2 - 1.5)) = 17 := by norm_num
  have hclaim : claimedBottomZ 3 2 1.5 20 0 = 3 * (sigmoid 17 + sigmoid 17) := by
    rw [claimedBottomZ]
    norm_num
  have hcode : sigmoid_z 3 2 1.5 20 0
      = 3 * (1 / (1 + Real.exp 17) + 1 / (1 + Real.exp 17)) := by
    rw [sigmoid_z]
    norm_num
  have hexp17 : (18 : ℝ) ≤ Real.exp 17 := by
    have := Real.add_one_le_exp (17 : ℝ)
    linarith
  have hs17 : (1 : ℝ) / 2 ≤ sigmoid 17 := by
    rw [sigmoid]
    have h1 : Real.exp (-17) ≤ 1 := by
      rw [show (1 : ℝ) = Real.exp 0 by rw [Real.exp_zero]]
      exact Real.exp_le_exp.mpr (by norm_num)
    rw [le_div_iff₀ (by positivity)]
    linarith
  have hc : 1 / (1 + Real.exp 17) ≤ 1 / 19 := by
    apply div_le_div_of_nonneg_left (by norm_num) (by norm_num)
    linarith
  intro heq
  rw [hclaim, hcode] at heq
  nlinarith

/-- C2 (amended): the bottom height of `create_dolan_bridge` equals
`h_step * (sigmoid(-steepness*(x - left_step)) +
sigmoid(steepness*(x - right_step)))` with the standard logistic sigmoid —
the claim's formula with the sign of both sigmoid arguments flipped — where
`left_step = -L/2 + overlap_len`, `right_step = L/2 - overlap_len`; it is
within `h_step*exp(-steepness*overlap_len)` of `h_step` at both strip ends
and within `2*h_step*exp(-steepness*(L/2-overlap_len))` of 0 at the middle,
and every top vertex sits exactly `thickness` above the bottom vertex with
the same `(x, y)`. -/
theorem c2_dolan_bridge_profile (hs k ov L w th : ℝ) (res : ℕ)
    (hh : 0 < hs) (hk : 0 < k) (hov : 0 < ov) (hL : 2 * ov ≤ L) :
    (∀ x, sigmoid_z hs k ov L x
       = hs * (sigmoid (-(k * (x - (-L / 2 + ov))))
           + sigmoid (k * (x - (L / 2 - ov))))) ∧
    |sigmoid_z hs k ov L (-L / 2) - hs| ≤ hs * Real.exp (-(k * ov)) ∧
    |sigmoid_z hs k ov L (L / 2) - hs| ≤ hs * Real.exp (-(k * ov)) ∧
    0 < sigmoid_z hs k ov L 0 ∧
    sigmoid_z hs k ov L 0 ≤ 2 * hs * Real.exp (-(k * (L / 2 - ov))) ∧
    (∀ (i : ℕ) (right : Bool),
      dolanVertTop hs k ov L w th res i right
        = ((dolanVertBottom hs k ov L w res i right).1,
           (dolanVertBottom hs k ov L w res i right).2.1,
           (dolanVertBottom hs k ov L w res i right).2.2 + th)) := by
  refine ⟨?_, sigmoid_z_left_end hs k ov L hh hk hov hL,
    sigmoid_z_right_end hs k ov L hh hk hov hL,
    (sigmoid_z_middle hs k ov L hh).1, (sigmoid_z_middle hs k ov L hh).2, ?_⟩
  · intro x
    simp only [sigmoid_z, sigmoid, neg_neg, neg_mul]
  · intro i right
    simp only [dolanVertTop, dolanVertBottom]

/-- C2 witness: the amended profile theorem at
`h_step=3, steepness=2, overlap_len=1.5, total_length=20, width=5,
thickness=1, res_x=120`. -/
theorem c2_dolan_bridge_profile_witness :
    ((0 : ℝ) < 3 ∧ (0 : ℝ) < 2 ∧ (0 : ℝ) < 1.5 ∧ (2 : ℝ) * 1.5 ≤ 20) ∧
    |sigmoid_z 3 2 1.5 20 (-20 / 2) - 3| ≤ 3 * Real.exp (-(2 * 1.5)) := by
  refine ⟨⟨by norm_num, by norm_num, by norm_num, by norm_num⟩, ?_⟩
  exact (c2_dolan_bridge_profile 3 2 1.5 20 5 1 120
    (by norm_num) (by norm_num) (by norm_num) (by norm_num)).2.1

lemma exp_three_gt_20 : (20 : ℝ) < Real.exp 3 := by
  have h1 : (2.7182818283 : ℝ) ^ (3 : ℕ) ≤ Real.exp 1 ^ (3 : ℕ) :=
    pow_le_pow_left (by norm_num) Real.exp_one_gt_d9.le 3
  have h2 : Real.exp 1 ^ (3 : ℕ) = Real.exp 3 := by
    rw [← Real.exp_nat_mul]
    norm_num
  calc (20 : ℝ) < 2.7182818283 ^ (3 : ℕ) := by norm_num
    _ ≤ Real.exp 1 ^ (3 : ℕ) := h1
    _ = Real.exp 3 := h2

lemma exp_seventeen_gt : (131072 : ℝ) ≤ Real.exp 17 := by
  have h0 : (2 : ℝ) ≤ Real.exp 1 := by
    have := Real.add_one_le_exp (1 : ℝ)
    linarith
  have h1 : (2 : ℝ) ^ (17 : ℕ) ≤ Real.exp 1 ^ (17 : ℕ) :=
    pow_le_pow_left (by norm_num) h0 17
  have h2 : Real.exp 1 ^ (17 : ℕ) = Real.exp 17 := by
    rw [← Real.exp_nat_mul]
    norm_num
  calc (131072 : ℝ) = 2 ^ (17 : ℕ) := by norm_num
    _ ≤ Real.exp 1 ^ (17 : ℕ) := h1
    _ = Real.exp 17 := h2

/-- C6: the bottom-surface height of `create_dolan_bridge` with
`h_step=3, steepness=2, overlap_len=1.5, total_length=20` sits at island
height at both ends — `z(-10)` and `z(10)` are within
`3*exp(-steepness*overlap_len) = 3*exp(-3) < 0.15` of 3 — and dips to the
gap floor in the middle: `0 < z(0) ≤ 6*exp(-17) < 0.001`. -/
theorem c6_bridge_endpoint_values :
    |sigmoid_z 3 2 1.5 20 (-10) - 3| ≤ 3 * Real.exp (-(2 * 1.5)) ∧
    |sigmoid_z 3 2 1.5 20 10 - 3| ≤ 3 * Real.exp (-(2 * 1.5)) ∧
    3 * Real.exp (-(2 * 1.5)) < 0.15 ∧
    0 < sigmoid_z 3 2 1.5 20 0 ∧
    sigmoid_z 3 2 1.5 20 0 ≤ 6 * Real.exp (-17) ∧
    6 * Real.exp (-17) < 0.001 := by
  have hleft := sigmoid_z_left_end 3 2 1.5 20 (by norm_num) (by norm_num)
    (by norm_num) (by norm_num)
  have hright := sigmoid_z_right_end 3 2 1.5 20 (by norm_num) (by norm_num)
    (by norm_num) (by norm_num)
  have hmid := sigmoid_z_middle 3 2 1.5 20 (by norm_num)
  have hm10 : (-20 : ℝ) / 2 = -10 := by norm_num
  have hp10 : (20 : ℝ) / 2 = 10 := by norm_num
  have hmid17 : (2 : ℝ) * (20 / 2 - 1.5) = 17 := by norm_num
  have hsix : (2 : ℝ) * 3 = 6 := by norm_num
  refine ⟨?_, ?_, ?_, ?_, ?_, ?_⟩
  · rw [hm10] at hleft
    exact hleft
  · rw [hp10] at hright
    exact hright
  · have h1 : Real.exp (-(2 * 1.5 : ℝ)) = (Real.exp 3)⁻¹ := by
      rw [show -(2 * 1.5 : ℝ) = -3 by norm_num, Real.exp_neg]
    rw [h1]
    have h2 : (Real.exp 3)⁻¹ < (20 : ℝ)⁻¹ :=
      inv_lt_inv_of_lt (by norm_num) exp_three_gt_20
    rw [show (0.15 : ℝ) = 3 * (1 / 20) by norm_num]
    have : (20 : ℝ)⁻¹ = 1 / 20 := by norm_num
    nlinarith [Real.exp_pos (3 : ℝ)]
  · exact hmid.1
  · have := hmid.2
    rw [hmid17, hsix] at this
    exact this
  · have h1 : Real.exp (-17 : ℝ) = (Real.exp 17)⁻¹ := Real.exp_neg 17
    rw [h1]
    have h2 : (Real.exp 17)⁻¹ ≤ (131072 : ℝ)⁻¹ := by
      apply inv_le_inv_of_le (by norm_num) exp_seventeen_gt
    nlinarith

/-- A centreline containing two identical consecutive points. -/
noncomputable def degeneratePolyline : List (ℝ × ℝ) :=
  [(0, 0), (0, 0), (1, 0)]

lemma rawTangent_degenerate_zero :
    rawTangent degeneratePolyline 0 = (0, 0) := by
  have h1 : getPt degeneratePolyline 1 = ((0 : ℝ), (0 : ℝ)) := rfl
  have h0 : getPt degeneratePolyline 0 = ((0 : ℝ), (0 : ℝ)) := rfl
  rw [rawTangent, if_pos rfl, h1, h0]
  simp

lemma rawTangent_extended_degenerate_zero :
    rawTangent (extendCentreline degeneratePolyline) 0 = (0, 0) := by
  have hlen : (extendCentreline degeneratePolyline).length = 4 := by
    rw [extendCentreline]
    simp [degeneratePolyline]
  have h1 : getPt (extendCentreline degeneratePolyline) 1 = ((0 : ℝ), (0 : ℝ)) := rfl
  have h0 : getPt (extendCentreline degeneratePolyline) 0 = ((0 : ℝ), (0 : ℝ)) := rfl
  rw [rawTangent, if_pos rfl, h1, h0]
  simp

/-- C8 counterexample: on the centreline `[(0,0), (0,0), (1,0)]`, whose first
two points coincide, the 2D ribbon normal `Resonator.place` computes at the
degenerate vertex is the zero vector `(0,0)` — of norm 0, not a unit vector
along a fixed axis. -/
theorem c8_counterexample :
    resonatorNormal degeneratePolyline 0 = (0, 0) ∧
    norm2 (resonatorNormal degeneratePolyline 0) = 0 := by
  have hmain : resonatorNormal degeneratePolyline 0 = (0, 0) := by
    rw [resonatorNormal, ribbonNormal, normTangent,
      rawTangent_extended_degenerate_zero]
    norm_num [norm2, Real.sqrt_zero]
  exact ⟨hmain, by rw [hmain]; norm_num [norm2, Real.sqrt_zero]⟩

/-- C8 (amended): neither tangent computation divides by zero on a degenerate
(zero-length) tangent, but only the 3D `create_extruded_path` falls back to a
unit vector along a fixed axis — `(1, 0)`, unit X — when the tangent norm is
below `1e-9`; the 2D `Resonator.place` instead substitutes 1 for the zero
norm, so the degenerate vertex keeps a zero tangent and a zero ribbon normal
(the ribbon offsets collapse there). -/
theorem c8_degenerate_tangent_fallback (pts : List (ℝ × ℝ)) (i : ℕ) :
    (norm2 (rawTangent pts i) < 1e-9 →
      tangent3d pts i = (1, 0) ∧ norm2 (tangent3d pts i) = 1) ∧
    (rawTangent (extendCentreline pts) i = (0, 0) →
      resonatorNormal pts i = (0, 0)) := by
  constructor
  · intro h
    have ht : tangent3d pts i = (1, 0) := by
      rw [tangent3d, if_pos h]
    refine ⟨ht, ?_⟩
    rw [ht]
    rw [norm2]
    norm_num [Real.sqrt_one]
  · intro h
    rw [resonatorNormal, ribbonNormal, normTangent, h]
    norm_num [norm2, Real.sqrt_zero]

/-- C8 witness: the degenerate centreline `[(0,0), (0,0), (1,0)]` at vertex 0:
the 3D fallback produces unit X, the 2D computation produces the zero
normal. -/
theorem c8_degenerate_tangent_fallback_witness :
    (norm2 (rawTangent degeneratePolyline 0) < 1e-9 ∧
      tangent3d degeneratePolyline 0 = (1, 0)) ∧
    (rawTangent (extendCentreline degeneratePolyline) 0 = (0, 0) ∧
      resonatorNormal degeneratePolyline 0 = (0, 0)) := by
  have hz : norm2 (rawTangent degeneratePolyline 0) < 1e-9 := by
    rw [rawTangent_degenerate_zero]
    norm_num [norm2, Real.sqrt_zero]
  constructor
  · exact ⟨hz, ((c8_degenerate_tangent_fallback degeneratePolyline 0).1 hz).1⟩
  · exact ⟨rawTangent_extended_degenerate_zero,
      (c8_degenerate_tangent_fallback degeneratePolyline 0).2
        rawTangent_extended_degenerate_zero⟩

/-- C1 witness: on a 3 × 3 lattice — an interior horizontal edge (r=1),
a boundary horizontal edge (r=2=rows-1), and an interior vertical edge
(c=1). -/
theorem c1_mirror_rule_witness :
    ((0 : ℤ) < 1 ∧ (1 : ℤ) < 3 - 1 ∧
      (mirror_for_edge 3 3 ((1, 0), (1, 0 + 1)) EdgeDir.horizontal
          CellT.resonator = some true ↔
        cell_type 1 0 CellT.resonator = CellT.resonator) ∧
      (mirror_for_edge 3 3 ((1, 0), (1, 0 + 1)) EdgeDir.horizontal
          CellT.resonator = some false ↔
        cell_type (1 - 1) 0 CellT.resonator = CellT.resonator)) ∧
    ((0 : ℤ) < 2 ∧ (2 : ℤ) = 3 - 1 ∧
      (mirror_for_edge 3 3 ((2, 0), (2, 0 + 1)) EdgeDir.horizontal
          CellT.resonator = some true ↔
        ¬ cell_type (2 - 1) 0 CellT.resonator = CellT.resonator)) ∧
    ((0 : ℤ) < 1 ∧ (1 : ℤ) < 3 - 1 ∧
      (mirror_for_edge 3 3 ((0, 1), (0 + 1, 1)) EdgeDir.vertical
          CellT.resonator = some false ↔
        cell_type 0 1 CellT.resonator = CellT.resonator)) := by
  have h1 := c1_mirror_rule 3 3 1 0 CellT.resonator
  have h2 := c1_mirror_rule 3 3 2 0 CellT.resonator
  have h3 := c1_mirror_rule 3 3 0 1 CellT.resonator
  exact ⟨⟨by decide, by decide, h1.1 (by decide) (by decide)⟩,
    ⟨by decide, by decide, h2.2.1 (by decide) (by decide)⟩,
    ⟨by decide, by decide, (h3.2.2.1 (by decide) (by decide)).1⟩⟩
